import Mathlib

/-!
Shallow embedding of the `rust-ipld-git` parsing core (`src/lib.rs`,
`src/util.rs`, `src/node.rs`).

Byte buffers are modelled as `List Nat` (each element one byte).  Rust
`Result<T, String>` becomes `Except String`; code that can panic (slicing past
the end of a buffer, arithmetic underflow on `usize`, `unimplemented!`) is
modelled with the three-valued `PResult`, whose `panic` constructor records
that the Rust code aborts instead of returning.  Strings produced by the
parsers are kept as the underlying byte lists, after the same UTF-8 validation
the Rust code performs via `str::from_utf8`.
-/

namespace IpldGit

/-- Bytes of an ASCII string literal, used to transcribe the byte-string
literals (`b"tree"`, error texts, test payloads) of the Rust source. -/
def ascii (s : String) : List Nat :=
  s.data.map Char.toNat

/-- Result of a Rust computation that may return a value, return an `Err`,
or panic (slice out of range, integer underflow, `unimplemented!`). -/
inductive PResult (α : Type) where
  | ok : α → PResult α
  | err : String → PResult α
  | panic : PResult α
deriving Repr, DecidableEq

/-- Rust `util::cleave_out_at_value`: split `s` at the first element equal to
`val`, removing the matched element; `None` when `val` does not occur. -/
def cleave_out_at_value : List Nat → Nat → Option (List Nat × List Nat)
  | [], _ => none
  | b :: rest, val =>
    if b = val then some ([], rest)
    else
      match cleave_out_at_value rest val with
      | none => none
      | some (l, r) => some (b :: l, r)

/-- A UTF-8 continuation byte (`0x80`–`0xBF`). -/
def utf8_cont (c : Nat) : Bool :=
  decide (128 ≤ c) && decide (c ≤ 191)

mutual

/-- Validity of a byte sequence as UTF-8, as checked by `str::from_utf8`:
dispatch on the lead byte, requiring the right number of range-checked
continuation bytes for each multi-byte form. -/
def utf8_valid : List Nat → Bool
  | [] => true
  | c :: rest =>
    if c ≤ 127 then utf8_valid rest
    else if 194 ≤ c ∧ c ≤ 223 then utf8_tail1 rest
    else if c = 224 then utf8_tail2 160 191 rest
    else if (225 ≤ c ∧ c ≤ 236) ∨ c = 238 ∨ c = 239 then utf8_tail2 128 191 rest
    else if c = 237 then utf8_tail2 128 159 rest
    else if c = 240 then utf8_tail3 144 191 rest
    else if 241 ≤ c ∧ c ≤ 243 then utf8_tail3 128 191 rest
    else if c = 244 then utf8_tail3 128 143 rest
    else false

/-- One continuation byte, then a valid sequence. -/
def utf8_tail1 : List Nat → Bool
  | c1 :: rest => utf8_cont c1 && utf8_valid rest
  | [] => false

/-- One continuation byte restricted to `[lo, hi]`, one plain continuation
byte, then a valid sequence. -/
def utf8_tail2 (lo hi : Nat) : List Nat → Bool
  | c1 :: c2 :: rest =>
    (decide (lo ≤ c1) && decide (c1 ≤ hi)) && utf8_cont c2 && utf8_valid rest
  | _ => false

/-- One continuation byte restricted to `[lo, hi]`, two plain continuation
bytes, then a valid sequence. -/
def utf8_tail3 (lo hi : Nat) : List Nat → Bool
  | c1 :: c2 :: c3 :: rest =>
    (decide (lo ≤ c1) && decide (c1 ≤ hi)) && utf8_cont c2 && utf8_cont c3
      && utf8_valid rest
  | _ => false

end

/-- Rust `str::from_utf8` followed by `.to_string()` (`byteslice_to_string` in the
source): the "string" keeps its byte content, invalid UTF-8 is an error. -/
def byteslice_to_string (s : List Nat) : Except String (List Nat) :=
  if utf8_valid s then .ok s else .error "Error converting to utf-8 string"

/-- Value of a base-10 ASCII digit string, accumulated left to right exactly
as the Rust `u64` parser does. -/
def digitsVal (ds : List Nat) : Nat :=
  ds.foldl (fun acc c => acc * 10 + (c - 48)) 0

/-- Rust `str::parse::<u64>()` on the bytes of the string: an optional
leading `+` sign (byte 43), then one or more ASCII decimal digits, with the
value required to fit in 64 bits. -/
def parse_u64 (s : List Nat) : Option Nat :=
  let digits := if s.head? = some 43 then s.tail else s
  if digits = [] then none
  else if digits.all (fun c => decide (48 ≤ c) && decide (c ≤ 57)) then
    if digitsVal digits < 2 ^ 64 then some (digitsVal digits) else none
  else none

/-- Rust `cid::Cid` as constructed by this crate: version, codec and the raw
multihash bytes. -/
structure Cid where
  version : Nat
  codec : Nat
  hash : List Nat
deriving Repr, DecidableEq

/-- Value of `multihash::Hash::SHA1.code()` (= 0x11). -/
def sha1_code : Nat := 17

/-- Value of `multihash::Hash::SHA1.size()` (= 20). -/
def sha1_size : Nat := 20

/-- Numeric tag of `cid::Codec::GitRaw` (= 0x78). -/
def git_raw_codec : Nat := 120

/-- Numeric value of `cid::Version::V1`. -/
def cid_v1 : Nat := 1

/-- Invalid-digest-length error text of `sha1_to_cid`, carrying the
offending length. -/
def invalidDigestMsg (n : Nat) : String :=
  s!"Cannot convert byte slice to Cid: SHA-1 digests are 20-bytes, this is {n} bytes"

/-- Rust `util::sha1_to_cid`: reject digests whose length is not 20, otherwise
wrap `[SHA-1 code, 20] ++ digest` in a v1 git-raw CID. -/
def sha1_to_cid (digest : List Nat) : Except String Cid :=
  if digest.length ≠ 20 then
    .error (invalidDigestMsg digest.length)
  else
    let mh := sha1_code :: sha1_size :: digest
    .ok { version := cid_v1, codec := git_raw_codec, hash := mh }

/-- The `Blob` node: an opaque byte payload. -/
structure Blob where
  payload : List Nat
deriving Repr, DecidableEq

/-- Implementation of `Node::links` for `Blob`: always empty. -/
def Blob.links (_b : Blob) : List Cid := []

/-- One parsed tree entry: permission mode, name and the CID of the entry. -/
structure TreeEntry where
  mode : List Nat
  name : List Nat
  cid : Cid
deriving Repr, DecidableEq

/-- Insertion into the `HashMap<String, TreeEntry>` backing a `Tree`,
modelled as an association list: replace the value when the key is present,
append otherwise. -/
def mapInsert (m : List (List Nat × TreeEntry)) (k : List Nat) (v : TreeEntry) :
    List (List Nat × TreeEntry) :=
  match m with
  | [] => [(k, v)]
  | (k', v') :: rest => if k' = k then (k, v) :: rest else (k', v') :: mapInsert rest k v

/-- The `Tree` node: the `HashMap` of entries (as an association list of its
key-value pairs) together with the `order` vector of names. -/
structure Tree where
  entries : List (List Nat × TreeEntry)
  order : List (List Nat)
deriving Repr, DecidableEq

/-- Rust `Tree::new`. -/
def Tree.new : Tree := { entries := [], order := [] }

/-- Rust `Tree::add_entry`: insert into the map under the entry name and push
the name onto `order`. -/
def Tree.add_entry (t : Tree) (entry : TreeEntry) : Tree :=
  { entries := mapInsert t.entries entry.name entry
    order := t.order ++ [entry.name] }

/-- Implementation of `Node::links` for `Tree`: it maps over `self.entries.iter()`.
`HashMap::iter` yields the stored key-value pairs in an unspecified order, so
the enumeration sequence is an explicit parameter `iter`; theorems constrain
it to be a permutation of the map contents.  The `order` vector is not
consulted by the source. -/
def Tree.links (_t : Tree) (iter : List (List Nat × TreeEntry)) : List Cid :=
  iter.map fun p => p.2.cid

/-- The `UserInfo` record: name, email, timestamp and timezone, all stored textually. -/
structure UserInfo where
  name : List Nat
  email : List Nat
  timestamp : List Nat
  timezone : List Nat
deriving Repr, DecidableEq

/-- The `Commit` node: the tree CID, parent CIDs in declaration order, author and
committer. -/
structure Commit where
  tree : Cid
  parents : List Cid
  author : UserInfo
  committer : UserInfo
deriving Repr, DecidableEq

/-- Implementation of `Node::links` for `Commit`: the tree CID first, then the
parent CIDs in order. -/
def Commit.links (c : Commit) : List Cid :=
  c.tree :: c.parents

/-- The four recognized git object types. -/
inductive ObjectType where
  | Blob
  | Tree
  | Commit
  | Tag
deriving Repr, DecidableEq

/-- The dynamically-dispatched `Box<Node>` returned by `parse_object`,
modelled as a tagged union of the three constructible node kinds. -/
inductive NodeV where
  | blob : Blob → NodeV
  | tree : Tree → NodeV
  | commit : Commit → NodeV
deriving Repr, DecidableEq

/-- Size-mismatch error text of `parse_object_header`, carrying the declared
and the actual payload size. -/
def sizeMismatchMsg (declared actual : Nat) : String :=
  s!"Size mismatch: {declared} bytes specified, but actual size was {actual} bytes"

/-- Rust `parse_object_header`: split at the first null byte, split the header at
the first space, match the type token, parse the size as a `u64` and check it
against the payload length. -/
def parse_object_header (buf : List Nat) :
    Except String (List Nat × ObjectType) :=
  match cleave_out_at_value buf 0 with
  | none => .error "Invalid format for git object, missing null byte"
  | some (header, bytes) =>
    match cleave_out_at_value header 32 with
    | none => .error "Invalid format for git object header, must be <type> <size>"
    | some (type_, size) =>
      let objType? : Option ObjectType :=
        if type_ = ascii "blob" then some .Blob
        else if type_ = ascii "tree" then some .Tree
        else if type_ = ascii "commit" then some .Commit
        else if type_ = ascii "tag" then some .Tag
        else none
      match objType? with
      | none => .error "Invalid object type: expected one of blob, tree, commit or tag"
      | some obj_type =>
        if utf8_valid size then
          match parse_u64 size with
          | none => .error "Error parsing object size as an integer"
          | some n =>
            if bytes.length ≠ n then .error (sizeMismatchMsg n bytes.length)
            else .ok (bytes, obj_type)
        else .error "Error converting the object size to a string"

/-- Rust `parse_blob_object`: the payload is taken verbatim. -/
def parse_blob_object (bytes : List Nat) : Except String Blob :=
  .ok { payload := bytes }

/-- Rust `parse_tree_entry`: empty buffer signals the end of the tree; otherwise
read the mode up to a space, the name up to a null, then take the next
20 bytes unconditionally — `(&rest[..20], &rest[20..])` panics when fewer
than 20 bytes remain — validate mode and name as UTF-8 and convert the
digest to a CID. -/
def parse_tree_entry (buf : List Nat) : PResult (Option TreeEntry × List Nat) :=
  if buf.length = 0 then .ok (none, buf)
  else
    match cleave_out_at_value buf 32 with
    | none => .err "Could not read mode of tree entry"
    | some (mode_bytes, rest) =>
      match cleave_out_at_value rest 0 with
      | none => .err "Could not read name of tree entry"
      | some (name_bytes, rest) =>
        if rest.length < 20 then .panic
        else
          let hash_bytes := rest.take 20
          let rest := rest.drop 20
          if utf8_valid mode_bytes then
            if utf8_valid name_bytes then
              match sha1_to_cid hash_bytes with
              | .error e => .err e
              | .ok cid => .ok (some { mode := mode_bytes, name := name_bytes, cid := cid }, rest)
            else .err "Tree entry name is invalid, contains non utf-8 characters"
          else .err "Tree entry mode is invalid, contains non utf-8 characters"

/-- The `while let` loop of `parse_tree_object`: repeatedly parse an entry
and add it to the tree; stop and return the tree when the buffer is
exhausted; propagate errors (and panics). -/
def parse_tree_loop (bytes : List Nat) (tree : Tree) : PResult Tree :=
  match h : parse_tree_entry bytes with
  | .err e => .err e
  | .panic => .panic
  | .ok (none, _) => .ok tree
  | .ok (some entry, rest) => parse_tree_loop rest (tree.add_entry entry)
termination_by bytes.length
decreasing_by
  have cleq : ∀ (s : List Nat) (val : Nat) (l rr : List Nat),
      cleave_out_at_value s val = some (l, rr) → s = l ++ val :: rr := by
    intro s val
    induction s with
    | nil => intro l rr hcl; simp [cleave_out_at_value] at hcl
    | cons b rest2 ih =>
      intro l rr hcl
      unfold cleave_out_at_value at hcl
      split at hcl
      · rename_i hb
        simp only [Option.some.injEq, Prod.mk.injEq] at hcl
        subst hb
        rw [← hcl.1, ← hcl.2]
        rfl
      · rename_i hb
        split at hcl
        · exact absurd hcl (by simp)
        · rename_i l' r' hrec
          simp only [Option.some.injEq, Prod.mk.injEq] at hcl
          rw [← hcl.1, ← hcl.2]
          simpa using ih l' r' hrec
  unfold parse_tree_entry at h
  split at h
  · exact absurd h (by simp)
  · rename_i hne
    split at h
    · exact absurd h (by simp)
    · rename_i mode r1 hm
      split at h
      · exact absurd h (by simp)
      · rename_i name r2 hn
        have hbuf : bytes = mode ++ 32 :: r1 := cleq _ _ _ _ hm
        have hr1 : r1 = name ++ 0 :: r2 := cleq _ _ _ _ hn
        split at h
        · exact absurd h (by simp)
        · rename_i hlen
          push_neg at hlen
          split at h
          · split at h
            · cases hsha : sha1_to_cid (List.take 20 r2) with
              | error e =>
                simp only [hsha] at h
                exact absurd h (by simp)
              | ok cid =>
                simp only [hsha, PResult.ok.injEq, Prod.mk.injEq, Option.some.injEq] at h
                subst hbuf hr1
                have hrest : rest = r2.drop 20 := h.2.symm
                subst hrest
                simp [List.length_append, List.length_drop]
                omega
            · exact absurd h (by simp)
          · exact absurd h (by simp)

/-- Rust `parse_tree_object`: run the entry loop starting from `Tree::new`. -/
def parse_tree_object (bytes : List Nat) : PResult Tree :=
  parse_tree_loop bytes Tree.new

/-- Rust `parse_user_info`: split at the first `<` (byte 60) and drop the byte
before it — `&name[..name.len()-1]` panics when the name portion is empty —
then split at the first `>` (byte 62) and drop the byte after it —
`&buf[1..]` panics when nothing follows — then split the date at the first
space and validate all four fields as UTF-8. -/
def parse_user_info (buf : List Nat) : PResult UserInfo :=
  match cleave_out_at_value buf 60 with
  | none => .err "User info is missing an email enclosed in angle brackets"
  | some (name0, buf1) =>
    if name0.length = 0 then .panic
    else
      let name := name0.take (name0.length - 1)
      match cleave_out_at_value buf1 62 with
      | none => .err "User info email is missing a closing angle bracket"
      | some (email, buf2) =>
        if buf2.length = 0 then .panic
        else
          let buf3 := buf2.drop 1
          match cleave_out_at_value buf3 32 with
          | none => .err "User info date must be of the form <unix timestamp> <timezone offset>"
          | some (timestamp, timezone) =>
            match byteslice_to_string name with
            | .error e => .err e
            | .ok nameS =>
              match byteslice_to_string email with
              | .error e => .err e
              | .ok emailS =>
                match byteslice_to_string timestamp with
                | .error e => .err e
                | .ok tsS =>
                  match byteslice_to_string timezone with
                  | .error e => .err e
                  | .ok tzS =>
                    .ok { name := nameS, email := emailS, timestamp := tsS, timezone := tzS }

/-- Accumulator of the header loop of `parse_commit_object`: the four mutable
locals of the Rust function. -/
structure CommitSt where
  tree_cid : Option Cid
  parents : List Cid
  author_info : Option UserInfo
  committer_info : Option UserInfo
deriving Repr, DecidableEq

/-- Decoding of one hex digit, as in `hex::decode`. -/
def hexVal (c : Nat) : Option Nat :=
  if 48 ≤ c ∧ c ≤ 57 then some (c - 48)
  else if 97 ≤ c ∧ c ≤ 102 then some (c - 87)
  else if 65 ≤ c ∧ c ≤ 70 then some (c - 55)
  else none

/-- Rust `hex::decode`: pairs of hex digits to bytes; odd length or a non-hex
character is an error (collapsed to `none`, the caller supplies the
message). -/
def hex_decode : List Nat → Option (List Nat)
  | [] => some []
  | [_] => none
  | hi :: lo :: rest =>
    match hexVal hi, hexVal lo, hex_decode rest with
    | some h, some l, some bs => some ((h * 16 + l) :: bs)
    | _, _, _ => none

/-- The body of one iteration of the header loop of `parse_commit_object`, for a
non-empty line: split at the first space and dispatch on the field name,
returning the updated accumulator. -/
def commit_body (line : List Nat) (st : CommitSt) : PResult CommitSt :=
  match cleave_out_at_value line 32 with
  | none => .err "Invalid commit header line, should be of the form <name> <data>"
  | some (name, data) =>
    if name = ascii "tree" then
      match hex_decode data with
      | none => .err "Tree hash is not valid hexadecimal"
      | some digest =>
        if st.tree_cid.isSome then .err "Invalid second tree entry found"
        else
          match sha1_to_cid digest with
          | .error e => .err e
          | .ok c => .ok { st with tree_cid := some c }
    else if name = ascii "parent" then
      match hex_decode data with
      | none => .err "Tree hash is not valid hexadecimal"
      | some digest =>
        match sha1_to_cid digest with
        | .error e => .err e
        | .ok c => .ok { st with parents := st.parents ++ [c] }
    else if name = ascii "author" then
      if st.author_info.isSome then .err "Invalid second author entry found"
      else
        match parse_user_info data with
        | .err e => .err e
        | .panic => .panic
        | .ok u => .ok { st with author_info := some u }
    else if name = ascii "committer" then
      if st.committer_info.isSome then .err "Invalid second committer entry found"
      else
        match parse_user_info data with
        | .err e => .err e
        | .panic => .panic
        | .ok u => .ok { st with committer_info := some u }
    else .err "Unrecognized commit header field name"

/-- The header loop of `parse_commit_object`: split off a line at each
newline (byte 10) — no newline is an error — stop at a blank line, otherwise
run the line body and continue on the remainder. -/
def parse_commit_loop (bytes : List Nat) (st : CommitSt) : PResult CommitSt :=
  match h : cleave_out_at_value bytes 10 with
  | none => .err "Unexpected end of bytes"
  | some (line, rest) =>
    if line.length = 0 then .ok st
    else
      match commit_body line st with
      | .err e => .err e
      | .panic => .panic
      | .ok st2 => parse_commit_loop rest st2
termination_by bytes.length
decreasing_by
  have cleq : ∀ (s : List Nat) (val : Nat) (l rr : List Nat),
      cleave_out_at_value s val = some (l, rr) → s = l ++ val :: rr := by
    intro s val
    induction s with
    | nil => intro l rr hcl; simp [cleave_out_at_value] at hcl
    | cons b rest2 ih =>
      intro l rr hcl
      unfold cleave_out_at_value at hcl
      split at hcl
      · rename_i hb
        simp only [Option.some.injEq, Prod.mk.injEq] at hcl
        subst hb
        rw [← hcl.1, ← hcl.2]
        rfl
      · rename_i hb
        split at hcl
        · exact absurd hcl (by simp)
        · rename_i l' r' hrec
          simp only [Option.some.injEq, Prod.mk.injEq] at hcl
          rw [← hcl.1, ← hcl.2]
          simpa using ih l' r' hrec
  have hbytes : bytes = line ++ 10 :: rest := cleq _ _ _ _ h
  subst hbytes
  simp [List.length_append]
  omega

/-- Missing-required-field error text of `parse_commit_object`, naming the
field. -/
def missing_field_error (name : String) : String :=
  s!"Missing header field {name}"

/-- Rust `parse_commit_object`: run the header loop from the empty accumulator,
then require `tree`, `author` and `committer` to have been seen (in that
checking order). -/
def parse_commit_object (bytes : List Nat) : PResult Commit :=
  match parse_commit_loop bytes { tree_cid := none, parents := [], author_info := none, committer_info := none } with
  | .err e => .err e
  | .panic => .panic
  | .ok st =>
    match st.tree_cid with
    | none => .err (missing_field_error "tree")
    | some t =>
      match st.author_info with
      | none => .err (missing_field_error "author")
      | some a =>
        match st.committer_info with
        | none => .err (missing_field_error "committer")
        | some c => .ok { tree := t, parents := st.parents, author := a, committer := c }

/-- Rust `parse_object`: parse the header, then dispatch on the object type; the
`Tag` arm is `unimplemented!()`, which panics. -/
def parse_object (buf : List Nat) : PResult NodeV :=
  match parse_object_header buf with
  | .error e => .err e
  | .ok (bytes, obj_type) =>
    match obj_type with
    | .Blob =>
      match parse_blob_object bytes with
      | .error e => .err e
      | .ok b => .ok (.blob b)
    | .Tree =>
      match parse_tree_object bytes with
      | .err e => .err e
      | .panic => .panic
      | .ok t => .ok (.tree t)
    | .Commit =>
      match parse_commit_object bytes with
      | .err e => .err e
      | .panic => .panic
      | .ok c => .ok (.commit c)
    | .Tag => .panic

/-- The literal byte token of each object type, as matched by
`parse_object_header`. -/
def typeToken : ObjectType → List Nat
  | .Blob => ascii "blob"
  | .Tree => ascii "tree"
  | .Commit => ascii "commit"
  | .Tag => ascii "tag"

/-- A 40-character lowercase hex digest (40 times `a`) used to build
concrete commit header lines. -/
def hexA : List Nat := ascii "aaaaaaaaaaaaaaaaaaaaaaaaaaaaaaaaaaaaaaaa"

/-- The CID of the digest encoded by `hexA` (twenty `0xaa` bytes). -/
def cidA : Cid := { version := 1, codec := 120, hash := 17 :: 20 :: List.replicate 20 170 }

/-- The user info parsed from the value `A <a@b> 1 +0000`. -/
def uA : UserInfo :=
  { name := ascii "A", email := ascii "a@b", timestamp := ascii "1", timezone := ascii "+0000" }

/-- A `tree` header line, without its newline. -/
def treeBody : List Nat := ascii "tree " ++ hexA

/-- A `parent` header line, without its newline. -/
def parentBody : List Nat := ascii "parent " ++ hexA

/-- An `author` header line, without its newline. -/
def authorBody : List Nat := ascii "author A <a@b> 1 +0000"

/-- A `committer` header line, without its newline. -/
def committerBody : List Nat := ascii "committer A <a@b> 1 +0000"

/-- Concatenation of `n` consecutive `parent` header lines (with newlines). -/
def parentLinesN : Nat → List Nat
  | 0 => []
  | n + 1 => (parentBody ++ [10]) ++ parentLinesN n

/-- The initial accumulator of `parse_commit_object`. -/
def commitSt0 : CommitSt :=
  { tree_cid := none, parents := [], author_info := none, committer_info := none }

/-- First digest of the two-entry tree payload of claim C1. -/
def c1_D1 : List Nat := List.replicate 20 1

/-- Second digest of the two-entry tree payload of claim C1. -/
def c1_D2 : List Nat := List.replicate 20 2

/-- The tree payload with entries `("100644","a.txt",D1)` and
`("40000","dir",D2)`. -/
def c1_payload : List Nat :=
  ascii "100644 a.txt" ++ [0] ++ c1_D1 ++ ascii "40000 dir" ++ [0] ++ c1_D2

/-- CID of `c1_D1`. -/
def c1_cid1 : Cid := { version := 1, codec := 120, hash := 17 :: 20 :: c1_D1 }

/-- CID of `c1_D2`. -/
def c1_cid2 : Cid := { version := 1, codec := 120, hash := 17 :: 20 :: c1_D2 }

/-- First parsed entry of `c1_payload`. -/
def c1_e1 : TreeEntry := { mode := ascii "100644", name := ascii "a.txt", cid := c1_cid1 }

/-- Second parsed entry of `c1_payload`. -/
def c1_e2 : TreeEntry := { mode := ascii "40000", name := ascii "dir", cid := c1_cid2 }

/-- The tree produced by parsing `c1_payload`. -/
def c1_tree : Tree :=
  { entries := [(ascii "a.txt", c1_e1), (ascii "dir", c1_e2)]
    order := [ascii "a.txt", ascii "dir"] }

/-- A tree payload whose entry has only 10 bytes left after the null terminator
of the name. -/
def c2_payload : List Nat := ascii "100644 a.txt" ++ [0] ++ List.replicate 10 0

/-- A complete `tree` header line. -/
def treeLine : List Nat := treeBody ++ [10]

/-- A complete `author` header line. -/
def authorLine : List Nat := authorBody ++ [10]

/-- A complete `committer` header line. -/
def committerLine : List Nat := committerBody ++ [10]

/-- A commit payload with two `tree` header lines whose second value is not
valid hexadecimal. -/
def c8_cex_payload : List Nat :=
  treeLine ++ (ascii "tree zz" ++ [10]) ++ [10]

/-- When the split succeeds, the input is the prefix, the sentinel, and the
suffix, concatenated. -/
theorem cleave_out_at_value_eq_append {s : List Nat} {val : Nat}
    {l r : List Nat} (h : cleave_out_at_value s val = some (l, r)) :
    s = l ++ val :: r := by
  induction s generalizing l r with
  | nil => simp [cleave_out_at_value] at h
  | cons b rest ih =>
    unfold cleave_out_at_value at h
    split at h
    · rename_i hb
      simp only [Option.some.injEq, Prod.mk.injEq] at h
      subst hb
      rw [← h.1, ← h.2]
      rfl
    · rename_i hb
      split at h
      · exact absurd h (by simp)
      · rename_i l' r' hrec
        simp only [Option.some.injEq, Prod.mk.injEq] at h
        rw [← h.1, ← h.2]
        simpa using ih hrec

/-- The split at the first occurrence of the sentinel: when the sentinel does
not occur in `l`, splitting `l ++ val :: r` gives back `l` and `r`. -/
theorem cleave_out_at_value_append {l : List Nat} (val : Nat) (r : List Nat)
    (hl : val ∉ l) : cleave_out_at_value (l ++ val :: r) val = some (l, r) := by
  induction l with
  | nil => simp [cleave_out_at_value]
  | cons b rest ih =>
    have hb : b ≠ val := by
      intro hcontra
      exact hl (hcontra ▸ List.mem_cons_self b rest)
    have hrest : val ∉ rest := fun hmem => hl (List.mem_cons_of_mem b hmem)
    simp only [List.cons_append]
    unfold cleave_out_at_value
    rw [if_neg hb, ih hrest]

/-- A successful split returns a strictly shorter suffix (the sentinel byte
itself is consumed); this is the strict-consumption measure of the commit
line loop of the commit parser. -/
theorem cleave_out_at_value_suffix_lt {s : List Nat} {val : Nat}
    {l r : List Nat} (h : cleave_out_at_value s val = some (l, r)) :
    r.length < s.length := by
  have := cleave_out_at_value_eq_append h
  subst this
  simp [List.length_append]
  omega

/-- A successful `parse_tree_entry` that yields an entry strictly consumes
part of the buffer: the remainder is shorter than the input. -/
theorem parse_tree_entry_consumes (buf : List Nat) (entry : TreeEntry)
    (rest : List Nat) (h : parse_tree_entry buf = .ok (some entry, rest)) :
    rest.length < buf.length := by
  unfold parse_tree_entry at h
  split at h
  · exact absurd h (by simp)
  · rename_i hne
    split at h
    · exact absurd h (by simp)
    · rename_i mode r1 hm
      split at h
      · exact absurd h (by simp)
      · rename_i name r2 hn
        have hbuf : buf = mode ++ 32 :: r1 := cleave_out_at_value_eq_append hm
        have hr1 : r1 = name ++ 0 :: r2 := cleave_out_at_value_eq_append hn
        split at h
        · exact absurd h (by simp)
        · rename_i hlen
          push_neg at hlen
          split at h
          · split at h
            · cases hsha : sha1_to_cid (List.take 20 r2) with
              | error e =>
                simp only [hsha] at h
                exact absurd h (by simp)
              | ok cid =>
                simp only [hsha, PResult.ok.injEq, Prod.mk.injEq, Option.some.injEq] at h
                subst hbuf hr1
                have hrest : rest = r2.drop 20 := h.2.symm
                subst hrest
                simp [List.length_append, List.length_drop]
                omega
            · exact absurd h (by simp)
          · exact absurd h (by simp)

/-- Unfolding of the tree loop when an entry is parsed: continue on the
remainder with the entry added. -/
theorem parse_tree_loop_step (bytes : List Nat) (tree : Tree) (entry : TreeEntry)
    (rest : List Nat) (h : parse_tree_entry bytes = .ok (some entry, rest)) :
    parse_tree_loop bytes tree = parse_tree_loop rest (tree.add_entry entry) := by
  rw [parse_tree_loop]
  split
  all_goals rename_i heq
  · rw [h] at heq; exact absurd heq (by simp)
  · rw [h] at heq; exact absurd heq (by simp)
  · rw [h] at heq; exact absurd heq (by simp)
  · rw [h] at heq
    simp only [PResult.ok.injEq, Prod.mk.injEq, Option.some.injEq] at heq
    rw [heq.1, heq.2]

/-- Unfolding of the tree loop at the end of the buffer: return the
accumulated tree. -/
theorem parse_tree_loop_done (bytes : List Nat) (tree : Tree) (rest : List Nat)
    (h : parse_tree_entry bytes = .ok (none, rest)) :
    parse_tree_loop bytes tree = .ok tree := by
  rw [parse_tree_loop]
  split
  all_goals rename_i heq
  · rw [h] at heq; exact absurd heq (by simp)
  · rw [h] at heq; exact absurd heq (by simp)
  · rfl
  · rw [h] at heq; exact absurd heq (by simp)

/-- Unfolding of the tree loop when entry parsing panics: the loop panics. -/
theorem parse_tree_loop_panic (bytes : List Nat) (tree : Tree)
    (h : parse_tree_entry bytes = .panic) :
    parse_tree_loop bytes tree = .panic := by
  rw [parse_tree_loop]
  split
  all_goals rename_i heq
  · rw [h] at heq; exact absurd heq (by simp)
  · rfl
  · rw [h] at heq; exact absurd heq (by simp)
  · rw [h] at heq; exact absurd heq (by simp)

/-- Unfolding of the commit header loop at a blank line: return the
accumulated state. -/
theorem parse_commit_loop_blank (rest : List Nat) (st : CommitSt) :
    parse_commit_loop (10 :: rest) st = .ok st := by
  rw [parse_commit_loop]
  have hcl : cleave_out_at_value (10 :: rest) 10 = some ([], rest) := by
    unfold cleave_out_at_value
    rw [if_pos rfl]
  split
  all_goals rename_i heq
  · rw [hcl] at heq; exact absurd heq (by simp)
  · rw [hcl] at heq
    simp only [Option.some.injEq, Prod.mk.injEq] at heq
    rw [if_pos]
    rw [← heq.1]
    rfl

/-- Unfolding of the commit header loop on a non-blank line whose body
succeeds: continue on the remainder with the updated state. -/
theorem parse_commit_loop_step (line rest : List Nat) (st st2 : CommitSt)
    (h10 : 10 ∉ line) (hne : line ≠ [])
    (hbody : commit_body line st = .ok st2) :
    parse_commit_loop (line ++ 10 :: rest) st = parse_commit_loop rest st2 := by
  rw [parse_commit_loop]
  have hcl : cleave_out_at_value (line ++ 10 :: rest) 10 = some (line, rest) :=
    cleave_out_at_value_append 10 rest h10
  split
  all_goals rename_i heq
  · rw [hcl] at heq; exact absurd heq (by simp)
  · rw [hcl] at heq
    simp only [Option.some.injEq, Prod.mk.injEq] at heq
    rw [if_neg]
    · rw [← heq.1, ← heq.2, hbody]
    · rw [← heq.1]
      simpa using hne

/-- Unfolding of the commit header loop on a non-blank line whose body
fails: the loop fails with the same error. -/
theorem parse_commit_loop_err (line rest : List Nat) (st : CommitSt) (e : String)
    (h10 : 10 ∉ line) (hne : line ≠ [])
    (hbody : commit_body line st = .err e) :
    parse_commit_loop (line ++ 10 :: rest) st = .err e := by
  rw [parse_commit_loop]
  have hcl : cleave_out_at_value (line ++ 10 :: rest) 10 = some (line, rest) :=
    cleave_out_at_value_append 10 rest h10
  split
  all_goals rename_i heq
  · rw [hcl] at heq; exact absurd heq (by simp)
  · rw [hcl] at heq
    simp only [Option.some.injEq, Prod.mk.injEq] at heq
    rw [if_neg]
    · rw [← heq.1, hbody]
    · rw [← heq.1]
      simpa using hne

/-- Processing a `tree` line when no tree was seen yet records its CID. -/
theorem commit_body_tree_ok (st : CommitSt) (h : st.tree_cid = none) :
    commit_body treeBody st = .ok { st with tree_cid := some cidA } := by
  unfold commit_body
  rw [show cleave_out_at_value treeBody 32 = some (ascii "tree", hexA) from by decide]
  simp only [show hex_decode hexA = some (List.replicate 20 170) from by decide, h]
  rfl

/-- Processing a `tree` line when a tree was already seen is the
duplicate-tree error. -/
theorem commit_body_tree_dup (st : CommitSt) (h : st.tree_cid.isSome = true) :
    commit_body treeBody st = .err "Invalid second tree entry found" := by
  unfold commit_body
  rw [show cleave_out_at_value treeBody 32 = some (ascii "tree", hexA) from by decide]
  simp only [show hex_decode hexA = some (List.replicate 20 170) from by decide, h]
  rfl

/-- Processing a `parent` line appends its CID, whatever the state. -/
theorem commit_body_parent (st : CommitSt) :
    commit_body parentBody st = .ok { st with parents := st.parents ++ [cidA] } := by
  rfl

/-- Processing an `author` line when no author was seen yet records the
parsed user info. -/
theorem commit_body_author_ok (st : CommitSt) (h : st.author_info = none) :
    commit_body authorBody st = .ok { st with author_info := some uA } := by
  unfold commit_body
  rw [show cleave_out_at_value authorBody 32 = some (ascii "author", ascii "A <a@b> 1 +0000") from by decide]
  simp only [h]
  rfl

/-- Processing a second `author` line is the duplicate-author error. -/
theorem commit_body_author_dup (st : CommitSt) (h : st.author_info.isSome = true) :
    commit_body authorBody st = .err "Invalid second author entry found" := by
  unfold commit_body
  rw [show cleave_out_at_value authorBody 32 = some (ascii "author", ascii "A <a@b> 1 +0000") from by decide]
  simp only [h]
  rfl

/-- Processing a `committer` line when no committer was seen yet records the
parsed user info. -/
theorem commit_body_committer_ok (st : CommitSt) (h : st.committer_info = none) :
    commit_body committerBody st = .ok { st with committer_info := some uA } := by
  unfold commit_body
  rw [show cleave_out_at_value committerBody 32 = some (ascii "committer", ascii "A <a@b> 1 +0000") from by decide]
  simp only [h]
  rfl

/-- Processing a second `committer` line is the duplicate-committer error. -/
theorem commit_body_committer_dup (st : CommitSt) (h : st.committer_info.isSome = true) :
    commit_body committerBody st = .err "Invalid second committer entry found" := by
  unfold commit_body
  rw [show cleave_out_at_value committerBody 32 = some (ascii "committer", ascii "A <a@b> 1 +0000") from by decide]
  simp only [h]
  rfl

/-- Running the commit header loop through `n` parent lines appends `n`
copies of the parent CID and continues. -/
theorem parse_commit_loop_parents (n : Nat) (rest : List Nat) (st : CommitSt) :
    parse_commit_loop (parentLinesN n ++ rest) st
      = parse_commit_loop rest { st with parents := st.parents ++ List.replicate n cidA } := by
  induction n generalizing st with
  | zero =>
    simp only [parentLinesN, List.nil_append, List.replicate_zero, List.append_nil]
  | succ n ih =>
    have hassoc : parentLinesN (n + 1) ++ rest = parentBody ++ 10 :: (parentLinesN n ++ rest) := by
      simp [parentLinesN]
    rw [hassoc,
      parse_commit_loop_step parentBody (parentLinesN n ++ rest) st
        { st with parents := st.parents ++ [cidA] } (by decide) (by decide)
        (commit_body_parent st),
      ih]
    simp [List.replicate_succ, List.append_assoc]

/-- A list of 7-bit bytes is valid UTF-8. -/
theorem utf8_valid_ascii (s : List Nat) (h : ∀ c ∈ s, c ≤ 127) :
    utf8_valid s = true := by
  induction s with
  | nil => rfl
  | cons c rest ih =>
    unfold utf8_valid
    rw [if_pos (h c (List.mem_cons_self c rest))]
    exact ih fun x hx => h x (List.mem_cons_of_mem c hx)

/-- On a non-empty all-digit token whose value fits in 64 bits, `parse_u64`
returns that value. -/
theorem parse_u64_digits (ds : List Nat) (hne : ds ≠ [])
    (hdig : ∀ c ∈ ds, 48 ≤ c ∧ c ≤ 57) (hlt : digitsVal ds < 2 ^ 64) :
    parse_u64 ds = some (digitsVal ds) := by
  unfold parse_u64
  have hhead : ¬ ds.head? = some 43 := by
    cases ds with
    | nil => simp
    | cons c rest =>
      simp only [List.head?, Option.some.injEq]
      have := (hdig c (List.mem_cons_self c rest)).1
      omega
  rw [if_neg hhead]
  simp only
  rw [if_neg hne]
  have hall : ds.all (fun c => decide (48 ≤ c) && decide (c ≤ 57)) = true := by
    rw [List.all_eq_true]
    intro c hc
    have := hdig c hc
    simp [this.1, this.2]
  rw [if_pos hall, if_pos hlt]

/-- The type-token dispatch of `parse_object_header` recognizes each of the
four literal tokens. -/
theorem typeToken_dispatch (t : ObjectType) :
    (if typeToken t = ascii "blob" then some ObjectType.Blob
     else if typeToken t = ascii "tree" then some ObjectType.Tree
     else if typeToken t = ascii "commit" then some ObjectType.Commit
     else if typeToken t = ascii "tag" then some ObjectType.Tag
     else none) = some t := by
  cases t <;> decide

/-- Claim C1 (code bug): parsing the two-entry payload records the insertion
order in `order`, but `Tree::links` maps over the `HashMap`, whose
enumeration order is unspecified; the reversed enumeration is a permutation
of the map contents and yields `[cid(D2), cid(D1)]`, not the claimed
`[cid(D1), cid(D2)]` — the `order` vector is never consulted. -/
theorem c1_links_not_insertion_order :
    parse_tree_object c1_payload = .ok c1_tree
    ∧ c1_tree.order = [ascii "a.txt", ascii "dir"]
    ∧ c1_tree.entries.reverse.Perm c1_tree.entries
    ∧ c1_tree.links c1_tree.entries.reverse = [c1_cid2, c1_cid1]
    ∧ [c1_cid2, c1_cid1] ≠ [c1_cid1, c1_cid2] := by
  refine ⟨?_, by decide, List.reverse_perm _, by decide, by decide⟩
  unfold parse_tree_object
  rw [parse_tree_loop_step _ _ c1_e1 (ascii "40000 dir" ++ [0] ++ c1_D2) (by decide),
    parse_tree_loop_step _ _ c1_e2 [] (by decide),
    parse_tree_loop_done _ _ [] (by decide)]
  decide

/-- Claim C2 (code bug): on a tree payload with fewer than 20 bytes after
the null terminator of the name, `parse_tree_object` panics (the slice
`&rest[..20]` is out of range) instead of returning a truncated-hash
error. -/
theorem c2_truncated_hash_panics : parse_tree_object c2_payload = .panic := by
  unfold parse_tree_object
  exact parse_tree_loop_panic _ _ (by decide)

/-- Claim C3 (code bug): `parse_user_info` panics — it does not return an
error value — when `<` is the first byte of the value (the name slice underflows)
and when no byte follows `>` (the slice `&buf[1..]` is out of range). -/
theorem c3_parse_user_info_panics :
    parse_user_info (ascii "<a@b> 1 +0000") = .panic
    ∧ parse_user_info (ascii "a <a@b>") = .panic :=
  ⟨by decide, by decide⟩

/-- Claim C4, counterexample: on the buffer `tag 0\x00`, whose validated
header declares type `tag`, `parse_object` panics (`unimplemented!`); it
does not return an error value. -/
theorem c4_tag_not_an_error : parse_object (ascii "tag 0" ++ [0]) = .panic := by
  unfold parse_object
  rw [show parse_object_header (ascii "tag 0" ++ [0]) = .ok ([], ObjectType.Tag) from rfl]

/-- Claim C4, amended: for every buffer whose validated header declares
object type `tag`, `parse_object` panics via `unimplemented!` — a
distinguishable not-implemented condition — and never silently returns a
parsed result. -/
theorem c4_tag_panics (buf bytes : List Nat)
    (h : parse_object_header buf = .ok (bytes, ObjectType.Tag)) :
    parse_object buf = .panic := by
  unfold parse_object
  rw [h]

/-- Witness for `c4_tag_panics` at the concrete buffer `tag 3\x00abc`. -/
theorem c4_tag_panics_witness :
    parse_object (ascii "tag 3" ++ [0] ++ ascii "abc") = .panic :=
  c4_tag_panics _ (ascii "abc") (by rfl)

/-- Claim C5: for every 20-byte digest `D`, `sha1_to_cid` is deterministic
(equal digests give byte-identical identifiers), the multihash is
`[SHA-1 tag, length 20, digest]`, and its last 20 bytes equal `D`. -/
theorem c5_digest_to_cid_shape (D D' : List Nat) (h : D.length = 20) (h' : D' = D) :
    sha1_to_cid D' = sha1_to_cid D
    ∧ ∃ c, sha1_to_cid D = .ok c
        ∧ c.hash = sha1_code :: sha1_size :: D
        ∧ c.hash.drop (c.hash.length - 20) = D := by
  constructor
  · rw [h']
  · refine
      ⟨{ version := cid_v1, codec := git_raw_codec, hash := sha1_code :: sha1_size :: D }, ?_, rfl, ?_⟩
    · unfold sha1_to_cid
      rw [if_neg (by omega)]
    · simp [List.length_cons, h]

/-- Witness for `c5_digest_to_cid_shape` at the all-zero 20-byte digest. -/
theorem c5_digest_to_cid_shape_witness :
    sha1_to_cid (List.replicate 20 0) = sha1_to_cid (List.replicate 20 0)
    ∧ ∃ c, sha1_to_cid (List.replicate 20 0) = .ok c
        ∧ c.hash = sha1_code :: sha1_size :: List.replicate 20 0
        ∧ c.hash.drop (c.hash.length - 20) = List.replicate 20 0 :=
  c5_digest_to_cid_shape _ _ (by decide) rfl

/-- Claim C6: `sha1_to_cid` fails exactly on digests whose length is not 20
and succeeds on every 20-byte digest. -/
theorem c6_digest_length_check (D : List Nat) :
    (D.length ≠ 20 → ∃ e, sha1_to_cid D = .error e)
    ∧ (D.length = 20 → ∃ c, sha1_to_cid D = .ok c) := by
  constructor
  · intro h
    refine ⟨invalidDigestMsg D.length, ?_⟩
    unfold sha1_to_cid
    rw [if_pos h]
  · intro h
    refine
      ⟨{ version := cid_v1, codec := git_raw_codec, hash := sha1_code :: sha1_size :: D }, ?_⟩
    unfold sha1_to_cid
    rw [if_neg (by omega)]

/-- Witness for `c6_digest_length_check` at lengths 0, 19, 21 and 20. -/
theorem c6_digest_length_check_witness :
    (∃ e, sha1_to_cid [] = .error e)
    ∧ (∃ e, sha1_to_cid (List.replicate 19 0) = .error e)
    ∧ (∃ e, sha1_to_cid (List.replicate 21 0) = .error e)
    ∧ (∃ c, sha1_to_cid (List.replicate 20 0) = .ok c) :=
  ⟨(c6_digest_length_check []).1 (by decide),
   (c6_digest_length_check _).1 (by decide),
   (c6_digest_length_check _).1 (by decide),
   (c6_digest_length_check _).2 (by decide)⟩

/-- Claim C7: for a buffer with a syntactically valid header whose size
token has value `N` and whose payload has length `M`, `parse_object_header`
fails with the size-mismatch error carrying both `N` and `M` whenever
`M ≠ N`, and succeeds exactly when `M = N` — a strict equality check. -/
theorem c7_size_check_strict (t : ObjectType) (ds payload : List Nat)
    (hne : ds ≠ []) (hdig : ∀ c ∈ ds, 48 ≤ c ∧ c ≤ 57)
    (hlt : digitsVal ds < 2 ^ 64) :
    (payload.length ≠ digitsVal ds →
      parse_object_header (typeToken t ++ 32 :: ds ++ 0 :: payload)
        = .error (sizeMismatchMsg (digitsVal ds) payload.length))
    ∧ (payload.length = digitsVal ds →
      parse_object_header (typeToken t ++ 32 :: ds ++ 0 :: payload)
        = .ok (payload, t)) := by
  have h32 : 32 ∉ typeToken t := by cases t <;> decide
  have h0 : (0 : Nat) ∉ typeToken t ++ 32 :: ds := by
    intro hmem
    rcases List.mem_append.mp hmem with hl | hr
    · cases t <;> revert hl <;> decide
    · rcases List.mem_cons.mp hr with h32' | hds
      · omega
      · have := (hdig 0 hds).1
        omega
  have key : parse_object_header (typeToken t ++ 32 :: ds ++ 0 :: payload)
      = (if payload.length ≠ digitsVal ds
          then .error (sizeMismatchMsg (digitsVal ds) payload.length)
          else .ok (payload, t)) := by
    unfold parse_object_header
    rw [show typeToken t ++ 32 :: ds ++ 0 :: payload
        = (typeToken t ++ 32 :: ds) ++ 0 :: payload from by simp]
    rw [cleave_out_at_value_append 0 payload h0]
    simp only
    rw [cleave_out_at_value_append 32 ds h32]
    simp only [typeToken_dispatch]
    rw [if_pos (utf8_valid_ascii ds fun c hc => le_trans (hdig c hc).2 (by norm_num))]
    rw [parse_u64_digits ds hne hdig hlt]
  constructor
  · intro hneq
    rw [key, if_pos hneq]
  · intro heq
    rw [key, if_neg (by omega)]

/-- Witness for `c7_size_check_strict`: `blob 4\x00abc` fails with the
size-mismatch error for declared 4 and actual 3, and `blob 4\x00abcd`
passes the size check. -/
theorem c7_size_check_strict_witness :
    parse_object_header (typeToken ObjectType.Blob ++ 32 :: [52] ++ 0 :: ascii "abc")
      = .error (sizeMismatchMsg (digitsVal [52]) (ascii "abc").length)
    ∧ parse_object_header (typeToken ObjectType.Blob ++ 32 :: [52] ++ 0 :: ascii "abcd")
      = .ok (ascii "abcd", ObjectType.Blob) :=
  ⟨(c7_size_check_strict ObjectType.Blob [52] (ascii "abc")
      (by decide) (by decide) (by decide)).1 (by decide),
   (c7_size_check_strict ObjectType.Blob [52] (ascii "abcd")
      (by decide) (by decide) (by decide)).2 (by decide)⟩

/-- Claim C8, counterexample: a commit payload with two `tree` header lines
fails with the invalid-hexadecimal error, not the duplicate-field error,
when the second value is not valid hex — the hex decode precedes the
duplicate check. -/
theorem c8_hex_error_shadows_dup :
    parse_commit_object c8_cex_payload = .err "Tree hash is not valid hexadecimal"
    ∧ "Tree hash is not valid hexadecimal" ≠ "Invalid second tree entry found" := by
  constructor
  · unfold parse_commit_object
    have hl : parse_commit_loop c8_cex_payload
        { tree_cid := none, parents := [], author_info := none, committer_info := none }
        = .err "Tree hash is not valid hexadecimal" := by
      rw [show c8_cex_payload = treeBody ++ 10 :: ((ascii "tree zz" ++ [10]) ++ [10])
          from by simp [c8_cex_payload, treeLine]]
      rw [parse_commit_loop_step treeBody _ _ _ (by decide) (by decide)
        (commit_body_tree_ok _ rfl)]
      rw [show (ascii "tree zz" ++ [10]) ++ [10] = ascii "tree zz" ++ 10 :: [10] from by simp]
      exact parse_commit_loop_err (ascii "tree zz") [10] _ _ (by decide) (by decide) (by decide)
    rw [hl]
  · decide

/-- Claim C8, amended: `parse_commit_object` enforces field multiplicity —
two `tree` lines with hex-valid values fail with the duplicate-tree error
(an invalid second value reports the hex error instead, since the hex decode
precedes the duplicate check), a second `author` or `committer` line fails
with the corresponding duplicate error, a header ending without `tree`,
`author` or `committer` fails with the missing-field error naming the field,
and any number of well-formed `parent` lines (zero or more) is accepted. -/
theorem c8_field_multiplicity :
    (∀ rest, parse_commit_object (treeLine ++ treeLine ++ rest)
        = .err "Invalid second tree entry found")
    ∧ (∀ rest, parse_commit_object (authorLine ++ authorLine ++ rest)
        = .err "Invalid second author entry found")
    ∧ (∀ rest, parse_commit_object (committerLine ++ committerLine ++ rest)
        = .err "Invalid second committer entry found")
    ∧ (∀ rest, parse_commit_object (10 :: rest) = .err (missing_field_error "tree"))
    ∧ (∀ rest, parse_commit_object (treeLine ++ 10 :: rest)
        = .err (missing_field_error "author"))
    ∧ (∀ rest, parse_commit_object (treeLine ++ authorLine ++ 10 :: rest)
        = .err (missing_field_error "committer"))
    ∧ (∀ n msg, parse_commit_object
        (treeLine ++ parentLinesN n ++ authorLine ++ committerLine ++ 10 :: msg)
        = .ok { tree := cidA, parents := List.replicate n cidA, author := uA, committer := uA }) := by
  refine ⟨fun rest => ?_, fun rest => ?_, fun rest => ?_, fun rest => ?_, fun rest => ?_,
    fun rest => ?_, fun n msg => ?_⟩
  · unfold parse_commit_object
    have hl : parse_commit_loop (treeLine ++ treeLine ++ rest)
        { tree_cid := none, parents := [], author_info := none, committer_info := none }
        = .err "Invalid second tree entry found" := by
      rw [show treeLine ++ treeLine ++ rest = treeBody ++ 10 :: (treeLine ++ rest)
          from by simp [treeLine]]
      rw [parse_commit_loop_step treeBody _ _ _ (by decide) (by decide)
        (commit_body_tree_ok _ rfl)]
      rw [show treeLine ++ rest = treeBody ++ 10 :: rest from by simp [treeLine]]
      exact parse_commit_loop_err treeBody rest _ _ (by decide) (by decide)
        (commit_body_tree_dup _ rfl)
    rw [hl]
  · unfold parse_commit_object
    have hl : parse_commit_loop (authorLine ++ authorLine ++ rest)
        { tree_cid := none, parents := [], author_info := none, committer_info := none }
        = .err "Invalid second author entry found" := by
      rw [show authorLine ++ authorLine ++ rest = authorBody ++ 10 :: (authorLine ++ rest)
          from by simp [authorLine]]
      rw [parse_commit_loop_step authorBody _ _ _ (by decide) (by decide)
        (commit_body_author_ok _ rfl)]
      rw [show authorLine ++ rest = authorBody ++ 10 :: rest from by simp [authorLine]]
      exact parse_commit_loop_err authorBody rest _ _ (by decide) (by decide)
        (commit_body_author_dup _ rfl)
    rw [hl]
  · unfold parse_commit_object
    have hl : parse_commit_loop (committerLine ++ committerLine ++ rest)
        { tree_cid := none, parents := [], author_info := none, committer_info := none }
        = .err "Invalid second committer entry found" := by
      rw [show committerLine ++ committerLine ++ rest
          = committerBody ++ 10 :: (committerLine ++ rest) from by simp [committerLine]]
      rw [parse_commit_loop_step committerBody _ _ _ (by decide) (by decide)
        (commit_body_committer_ok _ rfl)]
      rw [show committerLine ++ rest = committerBody ++ 10 :: rest from by simp [committerLine]]
      exact parse_commit_loop_err committerBody rest _ _ (by decide) (by decide)
        (commit_body_committer_dup _ rfl)
    rw [hl]
  · unfold parse_commit_object
    rw [parse_commit_loop_blank]
  · unfold parse_commit_object
    have hl : parse_commit_loop (treeLine ++ 10 :: rest)
        { tree_cid := none, parents := [], author_info := none, committer_info := none }
        = .ok { tree_cid := some cidA, parents := [], author_info := none,
                committer_info := none } := by
      rw [show treeLine ++ 10 :: rest = treeBody ++ 10 :: (10 :: rest) from by simp [treeLine]]
      rw [parse_commit_loop_step treeBody _ _ _ (by decide) (by decide)
        (commit_body_tree_ok _ rfl)]
      exact parse_commit_loop_blank rest _
    rw [hl]
  · unfold parse_commit_object
    have hl : parse_commit_loop (treeLine ++ authorLine ++ 10 :: rest)
        { tree_cid := none, parents := [], author_info := none, committer_info := none }
        = .ok { tree_cid := some cidA, parents := [], author_info := some uA,
                committer_info := none } := by
      rw [show treeLine ++ authorLine ++ 10 :: rest
          = treeBody ++ 10 :: (authorLine ++ 10 :: rest) from by simp [treeLine]]
      rw [parse_commit_loop_step treeBody _ _ _ (by decide) (by decide)
        (commit_body_tree_ok _ rfl)]
      rw [show authorLine ++ 10 :: rest = authorBody ++ 10 :: (10 :: rest)
          from by simp [authorLine]]
      rw [parse_commit_loop_step authorBody _ _ _ (by decide) (by decide)
        (commit_body_author_ok _ rfl)]
      exact parse_commit_loop_blank rest _
    rw [hl]
  · unfold parse_commit_object
    have hl : parse_commit_loop
        (treeLine ++ parentLinesN n ++ authorLine ++ committerLine ++ 10 :: msg)
        { tree_cid := none, parents := [], author_info := none, committer_info := none }
        = .ok { tree_cid := some cidA, parents := [] ++ List.replicate n cidA,
                author_info := some uA, committer_info := some uA } := by
      rw [show treeLine ++ parentLinesN n ++ authorLine ++ committerLine ++ 10 :: msg
          = treeBody ++ 10 :: (parentLinesN n ++ (authorLine ++ committerLine ++ 10 :: msg))
          from by simp [treeLine]]
      rw [parse_commit_loop_step treeBody _ _ _ (by decide) (by decide)
        (commit_body_tree_ok _ rfl)]
      rw [parse_commit_loop_parents]
      rw [show authorLine ++ committerLine ++ 10 :: msg
          = authorBody ++ 10 :: (committerLine ++ 10 :: msg) from by simp [authorLine]]
      rw [parse_commit_loop_step authorBody _ _ _ (by decide) (by decide)
        (commit_body_author_ok _ rfl)]
      rw [show committerLine ++ 10 :: msg = committerBody ++ 10 :: (10 :: msg)
          from by simp [committerLine]]
      rw [parse_commit_loop_step committerBody _ _ _ (by decide) (by decide)
        (commit_body_committer_ok _ rfl)]
      exact parse_commit_loop_blank msg _
    rw [hl]
    simp

/-- Claim C9: both parser loops strictly consume their buffer on every
iteration that continues — `parse_tree_entry` returns a strictly shorter
remainder whenever it yields an entry, and the newline split of the
commit header loop always returns a strictly shorter remainder — so execution is
bounded by the input length. -/
theorem c9_loops_consume :
    (∀ buf entry rest, parse_tree_entry buf = PResult.ok (some entry, rest) →
      rest.length < buf.length)
    ∧ (∀ bytes line rest, cleave_out_at_value bytes 10 = some (line, rest) →
      rest.length < bytes.length) :=
  ⟨fun buf entry rest h => parse_tree_entry_consumes buf entry rest h,
   fun _ _ _ h => cleave_out_at_value_suffix_lt h⟩

/-- Witness for `c9_loops_consume` on a concrete tree entry and a concrete
commit header line. -/
theorem c9_loops_consume_witness :
    ([] : List Nat).length < (ascii "100644 a" ++ [0] ++ List.replicate 20 7).length
    ∧ (ascii "xyz").length < (ascii "ab" ++ 10 :: ascii "xyz").length :=
  ⟨c9_loops_consume.1 _
      { mode := ascii "100644", name := ascii "a"
        cid := { version := 1, codec := 120, hash := 17 :: 20 :: List.replicate 20 7 } }
      [] (by decide),
   c9_loops_consume.2 _ (ascii "ab") (ascii "xyz") (by decide)⟩

/-- Claim C10: the size field is parsed with the Rust `u64` string parser,
which permits a leading `+`: the buffer `blob +4\x00abcd` passes the header
check and parses as a blob. -/
theorem c10_plus_sign_size :
    parse_object_header (ascii "blob +4" ++ [0] ++ ascii "abcd")
      = .ok (ascii "abcd", ObjectType.Blob)
    ∧ parse_object (ascii "blob +4" ++ [0] ++ ascii "abcd")
      = .ok (.blob { payload := ascii "abcd" }) :=
  ⟨by rfl, by rfl⟩

end IpldGit
